import Mathlib

set_option linter.unusedVariables false

/-!
Verification of the miner-process supervision core of poclbm-gui
(src/guiminer.py): the stdout line classifier and listener loop of
MinerListenerThread, the rate formatter format_khash, and the
ProfilePanel session state machine (start/stop, counters, statusbar).
Strings are modelled as Lean strings; the character-level helpers work
on the underlying character lists.
-/

/-- Typed result of classifying one line of worker output.  Mirrors the
wx events posted by MinerListenerThread.run: UpdateAcceptedEvent with
accepted=True or False, UpdateHashRateEvent with a rate, UpdateSoloCheckEvent
and UpdateStatusEvent with the raw line. -/
inductive WorkerEvent
  | ShareAccepted
  | ShareRejected
  | HashRate (rate : Nat)
  | SoloCheck
  | StatusText (text : String)
  deriving DecidableEq, Repr

/-- Whitespace as recognized by the Python string operations used in the
source (space, tab, newline, carriage return). -/
def isWs (c : Char) : Bool :=
  c = ' ' || c = '\t' || c = '\n' || c = '\r'

/-- Python str.strip on a character list: drop whitespace from both ends. -/
def stripChars (l : List Char) : List Char :=
  ((l.dropWhile isWs).reverse.dropWhile isWs).reverse

/-- Python str.strip, as used on each line read in MinerListenerThread.run. -/
def strip (s : String) : String :=
  String.mk (stripChars s.data)

/-- ASCII lowercasing of a character list; models the case-insensitive
matching (re.I) of the regular expressions in MinerListenerThread.run. -/
def lowerStr (l : List Char) : List Char :=
  l.map Char.toLower

/-- Contiguous-substring test: models re.search of a plain literal pattern. -/
def containsSub (pat : List Char) : List Char → Bool
  | [] => pat.isEmpty
  | c :: cs => pat.isPrefixOf (c :: cs) || containsSub pat cs

/-- Numeric value of a digit sequence, as Python int() of a regex capture. -/
def digitsVal (l : List Char) : Nat :=
  l.foldl (fun a c => a * 10 + (c.toNat - 48)) 0

/-- Leftmost match of the source regex r"(\d+) khash/s" (guiminer.py line 285):
a digit run followed by exactly one space and "khash/s"; returns the captured
integer.  The input is the lowercased line. -/
def rateSearch : List Char → Option Nat
  | [] => none
  | c :: cs =>
    if c.isDigit then
      if " khash/s".data.isPrefixOf ((c :: cs).dropWhile Char.isDigit) then
        some (digitsVal ((c :: cs).takeWhile Char.isDigit))
      else rateSearch cs
    else rateSearch cs

/-- Modelled from the spec: the rate rule pattern written in the spec,
(\d+)\s*khash/s, where the digit run and "khash/s" may be separated by any
amount of whitespace, including none.  This is the comparison target for the
claim; the source regex (rateSearch) instead demands exactly one space. -/
def rateSearchSpec : List Char → Option Nat
  | [] => none
  | c :: cs =>
    if c.isDigit then
      if "khash/s".data.isPrefixOf
          (((c :: cs).dropWhile Char.isDigit).dropWhile isWs) then
        some (digitsVal ((c :: cs).takeWhile Char.isDigit))
      else rateSearchSpec cs
    else rateSearchSpec cs

/-- Match of the source regex r"checking (\d+)" (guiminer.py line 290):
the literal "checking " followed by at least one digit, anywhere in the
lowercased line. -/
def checkingSearch : List Char → Bool
  | [] => false
  | c :: cs =>
    ("checking ".data.isPrefixOf (c :: cs) &&
      (match (c :: cs).drop 9 with
       | [] => false
       | d :: _ => d.isDigit)) ||
    checkingSearch cs

/-- The line contains "accepted", case-insensitively (rule 1). -/
def hasAccepted (line : String) : Bool :=
  containsSub "accepted".data (lowerStr line.data)

/-- The line contains "invalid" or "stale", case-insensitively (rule 2). -/
def hasInvalidOrStale (line : String) : Bool :=
  containsSub "invalid".data (lowerStr line.data) ||
  containsSub "stale".data (lowerStr line.data)

/-- The line classifier of MinerListenerThread.run (guiminer.py lines 275-298):
case-insensitive, first-match-wins: "accepted", then "invalid|stale", then
"(\d+) khash/s", then "checking (\d+)", else the line is piped through as a
status message. -/
def classify (line : String) : WorkerEvent :=
  let l := lowerStr line.data
  if containsSub "accepted".data l then WorkerEvent.ShareAccepted
  else if containsSub "invalid".data l || containsSub "stale".data l then
    WorkerEvent.ShareRejected
  else
    match rateSearch l with
    | some r => WorkerEvent.HashRate r
    | none =>
      if checkingSearch l then WorkerEvent.SoloCheck
      else WorkerEvent.StatusText line

/-- The reader loop of MinerListenerThread.run, with explicit fuel.  The input
stream is the list of lines still available on the worker stdout; once it is
exhausted every readline returns the empty string (EOF).  The boolean result
is true when the loop has exited (shutdown_event observed set), false when the
fuel ran out with the loop still running.  Each iteration checks
shutdown_event, reads and strips a line, skips it if empty, otherwise posts
the classified event. -/
def listenerRun : Nat → Bool → List String → List WorkerEvent × Bool
  | 0, _, _ => ([], false)
  | Nat.succ fuel, shutdown, input =>
    if shutdown then ([], true)
    else
      match input with
      | [] => listenerRun fuel shutdown []
      | l :: rest =>
        if strip l = "" then listenerRun fuel shutdown rest
        else
          (classify (strip l) :: (listenerRun fuel shutdown rest).1,
           (listenerRun fuel shutdown rest).2)

/-- One decimal digit character; used to render integers the way Python %d
does.  The modulus keeps the definition total. -/
def digitChar (d : Nat) : Char :=
  Char.ofNat (48 + d % 10)

/-- Fuel-driven decimal rendering: most significant digits first. -/
def natCharsAux : Nat → Nat → List Char
  | 0, _ => []
  | Nat.succ fuel, n =>
    if n < 10 then [digitChar n]
    else natCharsAux fuel (n / 10) ++ [digitChar n]

/-- Decimal rendering of a natural number, as Python "%d" formatting. -/
def natChars (n : Nat) : List Char :=
  natCharsAux (n + 1) n

/-- Decimal rendering as a string. -/
def natStr (n : Nat) : String :=
  String.mk (natChars n)

/-- One-decimal fixed-point rendering of num/den, modelling Python "%.1f".
The quotient is scaled by ten and rounded to nearest (ties upward); the
source applies %.1f to a binary floating-point quotient, which agrees on
every value the claims exercise. -/
def fmt1 (num den : Nat) : String :=
  natStr ((num * 10 + den / 2) / den / 10) ++ "." ++
  natStr ((num * 10 + den / 2) / den % 10)

/-- format_khash (guiminer.py lines 85-94): gigahash over a million, megahash
over a thousand, "Connected" at zero, otherwise integer khash/s. -/
def format_khash (rate : Nat) : String :=
  if rate > 10 ^ 6 then fmt1 rate (10 ^ 6) ++ " Ghash/s"
  else if rate > 10 ^ 3 then fmt1 rate (10 ^ 3) ++ " Mhash/s"
  else if rate = 0 then "Connected"
  else natStr rate ++ " khash/s"

/-- The two update kinds of ProfilePanel (SOLO, POOL = range(2)). -/
inductive UpdateType
  | SOLO
  | POOL
  deriving DecidableEq, Repr

/-- An opaque local-time stamp; time.localtime() is external, so handlers take
the current stamp as a parameter.  The field holds its strftime rendering. -/
structure Timestamp where
  formatted : String
  deriving DecidableEq, Repr

/-- Handle to the poclbm subprocess (subprocess.Popen); returncode is None
while the process has not been observed to exit. -/
structure MinerHandle where
  returncode : Option Int
  deriving DecidableEq, Repr

/-- Handle to a MinerListenerThread; shutdown mirrors its shutdown_event. -/
structure ListenerHandle where
  shutdown : Bool
  deriving DecidableEq, Repr

/-- The mutable state of one ProfilePanel (guiminer.py lines 313-329), plus
the two statusbar slots it writes through set_status and the focus flag that
gates those writes. -/
structure ProfileState where
  is_mining : Bool
  is_possible_error : Bool
  miner : Option MinerHandle
  miner_listener : Option ListenerHandle
  accepted_shares : Nat
  invalid_shares : Nat
  diff1_hashes : Nat
  last_rate : Nat
  last_update_type : UpdateType
  last_update_time : Option Timestamp
  focused : Bool
  status0 : String
  status1 : String
  deriving DecidableEq, Repr

/-- set_status (guiminer.py lines 607-610): write the statusbar slot, but only
when this panel has focus. -/
def set_status (s : ProfileState) (msg : String) (index : Nat) : ProfileState :=
  { s with
    status0 := if s.focused = true ∧ index = 0 then msg else s.status0,
    status1 := if s.focused = true ∧ index ≠ 0 then msg else s.status1 }

/-- format_last_update_time (guiminer.py lines 580-585). -/
def format_last_update_time (s : ProfileState) : String :=
  match s.last_update_time with
  | none => ""
  | some t => "- last at " ++ t.formatted

/-- The pooled-mining shares summary text built by update_shares_on_statusbar
(guiminer.py lines 568-574). -/
def sharesText (s : ProfileState) : String :=
  "Shares: " ++ natStr s.accepted_shares ++ " accepted" ++
  (if s.invalid_shares > 0 then
    ", " ++ natStr s.invalid_shares ++ " stale/invalid"
  else "") ++
  " " ++ format_last_update_time s

/-- update_shares_on_statusbar: show the shares summary in slot 0. -/
def update_shares_on_statusbar (s : ProfileState) : ProfileState :=
  set_status s (sharesText s) 0

/-- update_last_time: record the current local time. -/
def update_last_time (now : Timestamp) (s : ProfileState) : ProfileState :=
  { s with last_update_time := some now }

/-- update_khash (guiminer.py lines 556-566): store the rate, show it in
slot 1, and if an error was suspected, restore the shares summary and clear
the flag. -/
def update_khash (s : ProfileState) (rate : Nat) : ProfileState :=
  let s1 := set_status { s with last_rate := rate } (format_khash rate) 1
  if s1.is_possible_error then
    { update_shares_on_statusbar s1 with is_possible_error := false }
  else s1

/-- update_shares (guiminer.py lines 587-595): pool-mode share report. -/
def update_shares (now : Timestamp) (s : ProfileState) (accepted : Bool) :
    ProfileState :=
  let s1 := { s with last_update_type := UpdateType.POOL }
  let s2 :=
    if accepted then { s1 with accepted_shares := s1.accepted_shares + 1 }
    else { s1 with invalid_shares := s1.invalid_shares + 1 }
  update_shares_on_statusbar (update_last_time now s2)

/-- update_status (guiminer.py lines 597-605): an unrecognized line is shown
verbatim in slot 0 and flags a possible error. -/
def update_status (s : ProfileState) (msg : String) : ProfileState :=
  { set_status s msg 0 with is_possible_error := true }

/-- update_solo_status (guiminer.py lines 631-640). -/
def update_solo_status (s : ProfileState) : ProfileState :=
  set_status
    s
    ("Difficulty 1 hashes: " ++ natStr s.diff1_hashes ++ " " ++
      format_last_update_time s)
    0

/-- update_solo (guiminer.py lines 642-647): solo-mode easy-hash report. -/
def update_solo (now : Timestamp) (s : ProfileState) : ProfileState :=
  let s1 := { s with last_update_type := UpdateType.SOLO }
  let s2 := { s1 with diff1_hashes := s1.diff1_hashes + 1 }
  update_solo_status (update_last_time now s2)

/-- Event dispatch, as wired by the Bind calls in ProfilePanel.__init__
(guiminer.py lines 369-372). -/
def handleEvent (now : Timestamp) (s : ProfileState) :
    WorkerEvent → ProfileState
  | WorkerEvent.ShareAccepted => update_shares now s true
  | WorkerEvent.ShareRejected => update_shares now s false
  | WorkerEvent.HashRate r => update_khash s r
  | WorkerEvent.SoloCheck => update_solo now s
  | WorkerEvent.StatusText t => update_status s t

/-- Apply a sequence of timestamped events in order. -/
def applyEvents (s : ProfileState) (evs : List (Timestamp × WorkerEvent)) :
    ProfileState :=
  evs.foldl (fun st p => handleEvent p.1 st p.2) s

/-- start_mining (guiminer.py lines 503-538).  Spawning the subprocess is an
external effect, so its outcome is a parameter: some handle on success, none
when subprocess.Popen raises OSError.  The except-clause re-raises, which is
modelled by returning the state as of the raise in the error case; nothing was
mutated before the Popen call, so that state is the input state. -/
def start_mining (s : ProfileState) (spawn : Option MinerHandle) :
    Except ProfileState ProfileState :=
  match spawn with
  | none => Except.error s
  | some h =>
    let s1 := { s with miner := some h }
    let s2 := { s1 with miner_listener := some { shutdown := false } }
    let s3 := { s2 with is_mining := true }
    Except.ok (set_status s3 "Starting..." 1)

/-- stop_mining (guiminer.py lines 540-554): drop the process handle (after a
best-effort terminate whose OSError is suppressed, hence the ignored
termRaises flag), drop the listener handle (after setting its shutdown
event), clear is_mining and show "Stopped" in slot 1. -/
def stop_mining (s : ProfileState) (termRaises : Bool) : ProfileState :=
  let s1 :=
    match s.miner with
    | none => s
    | some _ => { s with miner := none }
  let s2 :=
    match s1.miner_listener with
    | none => s1
    | some _ => { s1 with miner_listener := none }
  set_status { s2 with is_mining := false } "Stopped" 1

/-- The state built by ProfilePanel.__init__ (guiminer.py lines 313-329,
373): flags cleared, handles empty, counters zero, POOL kind, no timestamp,
followed by the update_shares_on_statusbar call at the end of __init__. -/
def initState (focused : Bool) : ProfileState :=
  update_shares_on_statusbar
    { is_mining := false
      is_possible_error := false
      miner := none
      miner_listener := none
      accepted_shares := 0
      invalid_shares := 0
      diff1_hashes := 0
      last_rate := 0
      last_update_type := UpdateType.POOL
      last_update_time := none
      focused := focused
      status0 := ""
      status1 := "Not started" }

/-- One externally-triggered operation on a session: a start attempt (with
the spawn outcome), a stop (with the terminate outcome), or one worker
event. -/
inductive SessionOp
  | opStart (spawn : Option MinerHandle)
  | opStop (termRaises : Bool)
  | opEvent (now : Timestamp) (ev : WorkerEvent)

/-- Apply one operation; a failed start leaves the state it raised with. -/
def applyOp (s : ProfileState) : SessionOp → ProfileState
  | SessionOp.opStart spawn =>
    match start_mining s spawn with
    | Except.ok s2 => s2
    | Except.error s2 => s2
  | SessionOp.opStop t => stop_mining s t
  | SessionOp.opEvent now ev => handleEvent now s ev

/-- Apply a sequence of operations in order. -/
def applyOps (s : ProfileState) (ops : List SessionOp) : ProfileState :=
  ops.foldl applyOp s

/-- Python str.split() with no argument: split on whitespace runs, dropping
empty pieces.  The accumulator holds the current token reversed. -/
def splitWsAux : List Char → List Char → List (List Char)
  | cur, [] => if cur = [] then [] else [cur.reverse]
  | cur, c :: cs =>
    if isWs c then
      if cur = [] then splitWsAux [] cs
      else cur.reverse :: splitWsAux [] cs
    else splitWsAux (c :: cur) cs

/-- Whitespace tokenization of a character list. -/
def splitWs (l : List Char) : List (List Char) :=
  splitWsAux [] l

/-- The per-profile configuration fields read by start_mining from the form
widgets (username, password, host, port, selected device index, extra
flags). -/
structure MinerConfig where
  username : String
  password : String
  host : String
  port : String
  device : Nat
  flags : String
  deriving DecidableEq, Repr

/-- The command string built by start_mining (guiminer.py lines 513-521):
"%s --user=%s --pass=%s -o %s -p %s -d%d --verbose %s" interpolated with the
executable and the configuration fields, then handed to subprocess.Popen as a
single string. -/
def buildCmdChars (exe : List Char) (c : MinerConfig) : List Char :=
  exe ++ (" --user=".data ++ (c.username.data ++ (" --pass=".data ++
  (c.password.data ++ (" -o ".data ++ (c.host.data ++ (" -p ".data ++
  (c.port.data ++ (" -d".data ++ (natChars c.device ++
  (" --verbose ".data ++ c.flags.data)))))))))))

/-- The argument sequence asserted by the claim: --user=, --pass=, -o host,
-p port, -d device, --verbose (the extra flags follow separately). -/
def claimedArgsChars (c : MinerConfig) : List (List Char) :=
  ["--user=".data ++ c.username.data,
   "--pass=".data ++ c.password.data,
   "-o".data, c.host.data, "-p".data, c.port.data,
   "-d".data ++ natChars c.device,
   "--verbose".data]

/-- Interleave tokens with single spaces in front of a tail; the shape the
command string takes. -/
def joinSp (toks : List (List Char)) (tail : List Char) : List Char :=
  match toks with
  | [] => tail
  | t :: rest => t ++ ' ' :: joinSp rest tail

/-- A configuration whose password contains a space, used to refute the
claimed argument-sequence equivalence. -/
def cexConfig : MinerConfig :=
  { username := "u", password := "a b", host := "h", port := "8332",
    device := 0, flags := "" }

/-- A configuration with whitespace-free fields, used as witness input. -/
def okConfig : MinerConfig :=
  { username := "kiv", password := "pw", host := "example.org",
    port := "8332", device := 1, flags := "-v -w128" }

/-- Claim C1: for every trimmed, non-empty line, classification applies the
rules case-insensitively in fixed first-match-wins priority: "accepted" wins
over everything (in particular over "stale"), then "invalid"/"stale", then the
rate rule, then the checking rule, then the StatusText fallback carrying the
line verbatim. -/
theorem classify_priority (line : String)
    (htrim : strip line = line) (hne : line ≠ "") :
    (hasAccepted line = true → classify line = WorkerEvent.ShareAccepted) ∧
    (hasAccepted line = false → hasInvalidOrStale line = true →
      classify line = WorkerEvent.ShareRejected) ∧
    (hasAccepted line = false → hasInvalidOrStale line = false →
      ∀ r, rateSearch (lowerStr line.data) = some r →
        classify line = WorkerEvent.HashRate r) ∧
    (hasAccepted line = false → hasInvalidOrStale line = false →
      rateSearch (lowerStr line.data) = none →
      checkingSearch (lowerStr line.data) = true →
        classify line = WorkerEvent.SoloCheck) ∧
    (hasAccepted line = false → hasInvalidOrStale line = false →
      rateSearch (lowerStr line.data) = none →
      checkingSearch (lowerStr line.data) = false →
        classify line = WorkerEvent.StatusText line) ∧
    classify "Accepted stale" = WorkerEvent.ShareAccepted := by
  refine ⟨?_, ?_, ?_, ?_, ?_, by decide⟩
  · intro h
    simp only [hasAccepted] at h
    simp [classify, h]
  · intro h1 h2
    simp only [hasAccepted] at h1
    simp only [hasInvalidOrStale] at h2
    simp [classify, h1, h2]
  · intro h1 h2 r hr
    simp only [hasAccepted] at h1
    simp only [hasInvalidOrStale, Bool.or_eq_false_iff] at h2
    simp [classify, h1, h2.1, h2.2, hr]
  · intro h1 h2 hr hc
    simp only [hasAccepted] at h1
    simp only [hasInvalidOrStale, Bool.or_eq_false_iff] at h2
    simp [classify, h1, h2.1, h2.2, hr, hc]
  · intro h1 h2 hr hc
    simp only [hasAccepted] at h1
    simp only [hasInvalidOrStale, Bool.or_eq_false_iff] at h2
    simp [classify, h1, h2.1, h2.2, hr, hc]

/-- Witness for C1 at the line "Accepted stale": trimmed, non-empty, contains
"accepted" (and "stale"), and classifies as ShareAccepted. -/
theorem classify_priority_witness :
    strip "Accepted stale" = "Accepted stale" ∧
    "Accepted stale" ≠ "" ∧
    hasAccepted "Accepted stale" = true ∧
    classify "Accepted stale" = WorkerEvent.ShareAccepted :=
  ⟨by decide, by decide, by decide,
   (classify_priority "Accepted stale" (by decide) (by decide)).1 (by decide)⟩

/-- Counterexample for C2: the line "123khash/s" matches the pattern written
in the claim, (\d+)\s*khash/s (zero whitespace between the digits and
khash/s), with capture 123, yet the code classifies it as StatusText, not
HashRate 123, because the source regex demands exactly one space. -/
theorem rate_rule_spec_pattern_counterexample :
    rateSearchSpec (lowerStr "123khash/s".data) = some 123 ∧
    hasAccepted "123khash/s" = false ∧
    hasInvalidOrStale "123khash/s" = false ∧
    classify "123khash/s" = WorkerEvent.StatusText "123khash/s" ∧
    classify "123khash/s" ≠ WorkerEvent.HashRate 123 := by
  decide

/-- Claim C2 (amended): the source pattern is (\d+) khash/s with exactly one
literal space.  For every line with no "accepted" and no "invalid"/"stale"
match, if the one-space pattern matches then classification yields HashRate of
the captured digits; "123 khash/s" gives HashRate 123 and "5000 KHASH/S"
gives HashRate 5000, while "123khash/s" (no space) falls through to
StatusText. -/
theorem rate_rule_one_space :
    (∀ (line : String) (r : Nat),
      hasAccepted line = false → hasInvalidOrStale line = false →
      rateSearch (lowerStr line.data) = some r →
      classify line = WorkerEvent.HashRate r) ∧
    classify "123 khash/s" = WorkerEvent.HashRate 123 ∧
    classify "5000 KHASH/S" = WorkerEvent.HashRate 5000 ∧
    classify "123khash/s" = WorkerEvent.StatusText "123khash/s" := by
  refine ⟨?_, by decide, by decide, by decide⟩
  intro line r h1 h2 hr
  simp only [hasAccepted] at h1
  simp only [hasInvalidOrStale, Bool.or_eq_false_iff] at h2
  simp [classify, h1, h2.1, h2.2, hr]

/-- Witness for C2 (amended) at the line "99 khash/s". -/
theorem rate_rule_one_space_witness :
    hasAccepted "99 khash/s" = false ∧
    hasInvalidOrStale "99 khash/s" = false ∧
    rateSearch (lowerStr "99 khash/s".data) = some 99 ∧
    classify "99 khash/s" = WorkerEvent.HashRate 99 :=
  ⟨by decide, by decide, by decide,
   rate_rule_one_space.1 "99 khash/s" 99 (by decide) (by decide) (by decide)⟩

/-- Claim C6: the rate formatting thresholds and sentinel: gigahash with one
decimal above a million, megahash with one decimal above a thousand,
"Connected" at zero, otherwise the integer kilohash value; with the four
concrete values from the spec. -/
theorem format_khash_spec (r : Nat) :
    (r > 10 ^ 6 → ∃ s, format_khash r = s ++ " Ghash/s") ∧
    (r ≤ 10 ^ 6 → r > 10 ^ 3 → ∃ s, format_khash r = s ++ " Mhash/s") ∧
    format_khash 0 = "Connected" ∧
    (r ≤ 10 ^ 3 → r ≠ 0 → format_khash r = natStr r ++ " khash/s") ∧
    format_khash 500 = "500 khash/s" ∧
    format_khash 1500 = "1.5 Mhash/s" ∧
    format_khash 2000000 = "2.0 Ghash/s" := by
  refine ⟨?_, ?_, by decide, ?_, by decide, by decide, by decide⟩
  · intro h
    exact ⟨fmt1 r (10 ^ 6), by unfold format_khash; rw [if_pos h]⟩
  · intro h1 h2
    refine ⟨fmt1 r (10 ^ 3), ?_⟩
    unfold format_khash
    rw [if_neg (by omega), if_pos h2]
  · intro h1 h2
    unfold format_khash
    rw [if_neg (by omega), if_neg (by omega), if_neg h2]

/-- Witness for C6, instantiating each guarded branch of the theorem at a
concrete rate. -/
theorem format_khash_spec_witness :
    (2000000 > 10 ^ 6 ∧ ∃ s, format_khash 2000000 = s ++ " Ghash/s") ∧
    (1500 ≤ 10 ^ 6 ∧ 1500 > 10 ^ 3 ∧ ∃ s, format_khash 1500 = s ++ " Mhash/s") ∧
    (500 ≤ 10 ^ 3 ∧ 500 ≠ 0 ∧ format_khash 500 = natStr 500 ++ " khash/s") :=
  ⟨⟨by decide, (format_khash_spec 2000000).1 (by decide)⟩,
   ⟨by decide, by decide, (format_khash_spec 1500).2.1 (by decide) (by decide)⟩,
   ⟨by decide, by decide,
    (format_khash_spec 500).2.2.2.1 (by decide) (by decide)⟩⟩

/-- With the input stream at EOF and shutdown_event unset, the reader loop
spins forever: readline keeps returning the empty string, which the loop
skips, so no amount of fuel makes it exit, and no event is ever posted. -/
theorem listenerRun_eof (n : Nat) : listenerRun n false [] = ([], false) := by
  induction n with
  | zero => rfl
  | succ k ih => simp [listenerRun, ih]

/-- Counterexample for C3: at EOF with shutdown_event unset the reader loop
never treats the loop as finished, contradicting the claim that EOF alone
stops the monitor without an explicit stop() call. -/
theorem listener_eof_counterexample :
    ¬ ∃ n, (listenerRun n false []).2 = true := by
  intro hex
  obtain ⟨n, hn⟩ := hex
  rw [listenerRun_eof n] at hn
  exact absurd hn (by decide)

/-- Claim C3 (amended): at EOF the reader loop does not finish on its own and
emits no events; it keeps polling until shutdown_event is set by stop(), and
once the event is set the loop exits at its next iteration.  Empty
(after-trim) lines are skipped and never classified; non-empty lines are
classified and forwarded. -/
theorem listener_loop_behavior (n : Nat) (input rest : List String)
    (l : String) :
    listenerRun n false [] = ([], false) ∧
    listenerRun (n + 1) true input = ([], true) ∧
    (strip l = "" → listenerRun (n + 1) false (l :: rest) =
      listenerRun n false rest) ∧
    (strip l ≠ "" → listenerRun (n + 1) false (l :: rest) =
      (classify (strip l) :: (listenerRun n false rest).1,
       (listenerRun n false rest).2)) := by
  refine ⟨listenerRun_eof n, by simp [listenerRun], ?_, ?_⟩
  · intro h
    simp [listenerRun, h]
  · intro h
    simp [listenerRun, h]

/-- Witness for C3 (amended): a blank line is skipped without being
classified, and a non-empty line is classified and forwarded. -/
theorem listener_loop_behavior_witness :
    (strip "  " = "" ∧
      listenerRun 3 false ("  " :: ["accepted"]) =
        listenerRun 2 false ["accepted"]) ∧
    (strip "accepted" ≠ "" ∧
      listenerRun 3 false ["accepted"] =
        (classify (strip "accepted") :: (listenerRun 2 false []).1,
         (listenerRun 2 false []).2)) :=
  ⟨⟨by decide, (listener_loop_behavior 2 [] ["accepted"] "  ").2.2.1 (by decide)⟩,
   ⟨by decide, (listener_loop_behavior 2 [] [] "accepted").2.2.2 (by decide)⟩⟩

/-- Claim C4: when the subprocess cannot be spawned, start_mining re-raises
the launch error to its caller and the session state is unchanged by the
failed call: it remains idle, with no worker handle stored and no listener
created. -/
theorem start_mining_launch_error (s : ProfileState)
    (h1 : s.is_mining = false) (h2 : s.miner = none)
    (h3 : s.miner_listener = none) :
    start_mining s none = Except.error s ∧
    s.is_mining = false ∧ s.miner = none ∧ s.miner_listener = none :=
  ⟨rfl, h1, h2, h3⟩

/-- Witness for C4 at the freshly constructed panel state. -/
theorem start_mining_launch_error_witness :
    start_mining (initState false) none = Except.error (initState false) ∧
    (initState false).is_mining = false ∧
    (initState false).miner = none ∧
    (initState false).miner_listener = none :=
  start_mining_launch_error (initState false) (by decide) (by decide)
    (by decide)

/-- Claim C5: stop_mining is idempotent: a second call is a no-op and raises
nothing, the final state is not mining with both handles cleared, the
suppressed terminate outcome does not affect the result, and (when the panel
has focus) statusbar slot 1 reads "Stopped". -/
theorem stop_mining_idempotent (s : ProfileState) (t1 t2 : Bool) :
    stop_mining (stop_mining s t1) t2 = stop_mining s t1 ∧
    (stop_mining s t1).is_mining = false ∧
    (stop_mining s t1).miner = none ∧
    (stop_mining s t1).miner_listener = none ∧
    stop_mining s true = stop_mining s false ∧
    (s.focused = true → (stop_mining s t1).status1 = "Stopped") := by
  obtain ⟨mn, pe, mi, ml, a, i, d, lr, lt, lu, fo, s0, s1⟩ := s
  cases mi <;> cases ml <;> cases fo <;>
    simp [stop_mining, set_status]

/-- Witness for C5 at a focused freshly constructed panel state. -/
theorem stop_mining_idempotent_witness :
    stop_mining (stop_mining (initState true) false) false =
      stop_mining (initState true) false ∧
    (stop_mining (initState true) false).is_mining = false ∧
    (stop_mining (initState true) false).miner = none ∧
    (stop_mining (initState true) false).miner_listener = none ∧
    stop_mining (initState true) true = stop_mining (initState true) false ∧
    (stop_mining (initState true) false).status1 = "Stopped" :=
  ⟨(stop_mining_idempotent (initState true) false false).1,
   (stop_mining_idempotent (initState true) false false).2.1,
   (stop_mining_idempotent (initState true) false false).2.2.1,
   (stop_mining_idempotent (initState true) false false).2.2.2.1,
   (stop_mining_idempotent (initState true) false false).2.2.2.2.1,
   (stop_mining_idempotent (initState true) false false).2.2.2.2.2
     (by decide)⟩

/-- Claim C7: is_possible_error is set exactly by StatusText handling and
cleared exactly by HashRate handling; share and solo events leave it
untouched; and after a StatusText a later HashRate clears the flag and (with
focus) restores the shares summary in statusbar slot 0. -/
theorem possible_error_flag (now now2 : Timestamp) (s : ProfileState)
    (t : String) (r : Nat) :
    (handleEvent now s (WorkerEvent.StatusText t)).is_possible_error = true ∧
    (handleEvent now s (WorkerEvent.HashRate r)).is_possible_error = false ∧
    (handleEvent now s WorkerEvent.ShareAccepted).is_possible_error =
      s.is_possible_error ∧
    (handleEvent now s WorkerEvent.ShareRejected).is_possible_error =
      s.is_possible_error ∧
    (handleEvent now s WorkerEvent.SoloCheck).is_possible_error =
      s.is_possible_error ∧
    (s.focused = true →
      (handleEvent now2 (handleEvent now s (WorkerEvent.StatusText t))
        (WorkerEvent.HashRate r)).is_possible_error = false ∧
      (handleEvent now2 (handleEvent now s (WorkerEvent.StatusText t))
        (WorkerEvent.HashRate r)).status0 = sharesText s) := by
  refine ⟨rfl, ?_, rfl, rfl, rfl, ?_⟩
  · cases hpe : s.is_possible_error <;>
      simp [handleEvent, update_khash, update_shares_on_statusbar,
        set_status, hpe]
  · intro hf
    constructor
    · rfl
    · simp [handleEvent, update_status, update_khash,
        update_shares_on_statusbar, set_status, sharesText,
        format_last_update_time, hf]

/-- Witness for C7 at a focused freshly constructed panel state. -/
theorem possible_error_flag_witness :
    (handleEvent ⟨"t2"⟩ (handleEvent ⟨"t1"⟩ (initState true)
      (WorkerEvent.StatusText "foo"))
      (WorkerEvent.HashRate 100)).is_possible_error = false ∧
    (handleEvent ⟨"t2"⟩ (handleEvent ⟨"t1"⟩ (initState true)
      (WorkerEvent.StatusText "foo"))
      (WorkerEvent.HashRate 100)).status0 = sharesText (initState true) :=
  (possible_error_flag ⟨"t1"⟩ ⟨"t2"⟩ (initState true) "foo" 100).2.2.2.2.2
    (by decide)

/-- Claim C8: solo and pool counters are independent: a sequence of N
SoloCheck events adds exactly N to diff1_hashes, leaves accepted_shares and
invalid_shares unchanged, and (when N is positive) sets the last-update kind
to SOLO; conversely share events never change diff1_hashes. -/
theorem solo_pool_independent (evs : List (Timestamp × WorkerEvent))
    (s : ProfileState) (now : Timestamp) :
    ((∀ p ∈ evs, p.2 = WorkerEvent.SoloCheck) →
      (applyEvents s evs).diff1_hashes = s.diff1_hashes + evs.length ∧
      (applyEvents s evs).accepted_shares = s.accepted_shares ∧
      (applyEvents s evs).invalid_shares = s.invalid_shares ∧
      (evs ≠ [] → (applyEvents s evs).last_update_type = UpdateType.SOLO)) ∧
    (handleEvent now s WorkerEvent.ShareAccepted).diff1_hashes =
      s.diff1_hashes ∧
    (handleEvent now s WorkerEvent.ShareRejected).diff1_hashes =
      s.diff1_hashes := by
  refine ⟨?_, rfl, rfl⟩
  induction evs generalizing s with
  | nil =>
    intro _
    refine ⟨by simp [applyEvents], by simp [applyEvents],
      by simp [applyEvents], ?_⟩
    intro hne
    exact absurd rfl hne
  | cons p rest ih =>
    intro hall
    obtain ⟨tm, ev⟩ := p
    have hev : ev = WorkerEvent.SoloCheck :=
      hall (tm, ev) (List.mem_cons_self _ _)
    subst hev
    have hrest : ∀ q ∈ rest, q.2 = WorkerEvent.SoloCheck :=
      fun q hq => hall q (List.mem_cons_of_mem _ hq)
    have hstep : applyEvents s ((tm, WorkerEvent.SoloCheck) :: rest) =
        applyEvents (handleEvent tm s WorkerEvent.SoloCheck) rest := by
      simp [applyEvents]
    obtain ⟨hd, ha, hi, ht⟩ := ih (handleEvent tm s WorkerEvent.SoloCheck) hrest
    have hd1 : (handleEvent tm s WorkerEvent.SoloCheck).diff1_hashes =
        s.diff1_hashes + 1 := rfl
    refine ⟨?_, ?_, ?_, ?_⟩
    · rw [hstep, hd, hd1, List.length_cons]
      omega
    · rw [hstep, ha]
      rfl
    · rw [hstep, hi]
      rfl
    · intro hne
      rw [hstep]
      rcases rest with _ | ⟨q, qs⟩
      · rfl
      · exact ht (by simp)

/-- Witness for C8: two SoloCheck events from a fresh state give
diff1_hashes 2, untouched share counters and the SOLO update kind. -/
theorem solo_pool_independent_witness :
    (applyEvents (initState true)
      [(⟨"t1"⟩, WorkerEvent.SoloCheck),
       (⟨"t2"⟩, WorkerEvent.SoloCheck)]).diff1_hashes =
      (initState true).diff1_hashes + 2 ∧
    (applyEvents (initState true)
      [(⟨"t1"⟩, WorkerEvent.SoloCheck),
       (⟨"t2"⟩, WorkerEvent.SoloCheck)]).accepted_shares =
      (initState true).accepted_shares ∧
    (applyEvents (initState true)
      [(⟨"t1"⟩, WorkerEvent.SoloCheck),
       (⟨"t2"⟩, WorkerEvent.SoloCheck)]).invalid_shares =
      (initState true).invalid_shares ∧
    (applyEvents (initState true)
      [(⟨"t1"⟩, WorkerEvent.SoloCheck),
       (⟨"t2"⟩, WorkerEvent.SoloCheck)]).last_update_type =
      UpdateType.SOLO := by
  obtain ⟨hd, ha, hi, ht⟩ :=
    (solo_pool_independent
      [(⟨"t1"⟩, WorkerEvent.SoloCheck), (⟨"t2"⟩, WorkerEvent.SoloCheck)]
      (initState true) ⟨"t0"⟩).1 (by decide)
  exact ⟨hd, ha, hi, ht (by simp)⟩

/-- No single operation decreases any of the three counters. -/
theorem applyOp_counters (s : ProfileState) (op : SessionOp) :
    s.accepted_shares ≤ (applyOp s op).accepted_shares ∧
    s.invalid_shares ≤ (applyOp s op).invalid_shares ∧
    s.diff1_hashes ≤ (applyOp s op).diff1_hashes := by
  obtain ⟨mn, pe, mi, ml, a, i, d, lr, lt, lu, fo, s0, s1⟩ := s
  cases op with
  | opStart spawn =>
    cases spawn <;> simp [applyOp, start_mining, set_status]
  | opStop t =>
    cases mi <;> cases ml <;> simp [applyOp, stop_mining, set_status]
  | opEvent now ev =>
    cases ev <;> cases pe <;>
      simp [applyOp, handleEvent, update_shares, update_khash, update_solo,
        update_status, update_shares_on_statusbar, update_solo_status,
        update_last_time, set_status]

/-- The three counters never decrease along any operation sequence. -/
theorem applyOps_counters (ops : List SessionOp) :
    ∀ s : ProfileState,
      s.accepted_shares ≤ (applyOps s ops).accepted_shares ∧
      s.invalid_shares ≤ (applyOps s ops).invalid_shares ∧
      s.diff1_hashes ≤ (applyOps s ops).diff1_hashes := by
  induction ops with
  | nil => intro s; simp [applyOps]
  | cons op rest ih =>
    intro s
    have h1 := applyOp_counters s op
    have h2 := ih (applyOp s op)
    have hstep : applyOps s (op :: rest) = applyOps (applyOp s op) rest := by
      simp [applyOps]
    rw [hstep]
    exact ⟨le_trans h1.1 h2.1, le_trans h1.2.1 h2.2.1,
      le_trans h1.2.2 h2.2.2⟩

/-- stop_mining leaves all three counters untouched. -/
theorem stop_mining_counters (s : ProfileState) (t : Bool) :
    (stop_mining s t).accepted_shares = s.accepted_shares ∧
    (stop_mining s t).invalid_shares = s.invalid_shares ∧
    (stop_mining s t).diff1_hashes = s.diff1_hashes := by
  obtain ⟨mn, pe, mi, ml, a, i, d, lr, lt, lu, fo, s0, s1⟩ := s
  cases mi <;> cases ml <;> simp [stop_mining, set_status]

/-- Claim C10: accepted_shares, invalid_shares and diff1_hashes are zeroed
only at construction and are monotonically non-decreasing under every
operation sequence; in particular stop_mining followed by a later successful
start_mining preserves the accumulated values instead of resetting them. -/
theorem counters_monotone (f : Bool) (ops : List SessionOp)
    (s : ProfileState) (t : Bool) (hdl : MinerHandle) :
    (initState f).accepted_shares = 0 ∧
    (initState f).invalid_shares = 0 ∧
    (initState f).diff1_hashes = 0 ∧
    s.accepted_shares ≤ (applyOps s ops).accepted_shares ∧
    s.invalid_shares ≤ (applyOps s ops).invalid_shares ∧
    s.diff1_hashes ≤ (applyOps s ops).diff1_hashes ∧
    (applyOp (stop_mining s t)
      (SessionOp.opStart (some hdl))).accepted_shares = s.accepted_shares ∧
    (applyOp (stop_mining s t)
      (SessionOp.opStart (some hdl))).invalid_shares = s.invalid_shares ∧
    (applyOp (stop_mining s t)
      (SessionOp.opStart (some hdl))).diff1_hashes = s.diff1_hashes := by
  have hmono := applyOps_counters ops s
  have hstop := stop_mining_counters s t
  have hstart :
      ∀ s2 : ProfileState,
        (applyOp s2 (SessionOp.opStart (some hdl))).accepted_shares =
          s2.accepted_shares ∧
        (applyOp s2 (SessionOp.opStart (some hdl))).invalid_shares =
          s2.invalid_shares ∧
        (applyOp s2 (SessionOp.opStart (some hdl))).diff1_hashes =
          s2.diff1_hashes :=
    fun s2 => ⟨rfl, rfl, rfl⟩
  exact ⟨rfl, rfl, rfl, hmono.1, hmono.2.1, hmono.2.2,
    ((hstart (stop_mining s t)).1).trans hstop.1,
    ((hstart (stop_mining s t)).2.1).trans hstop.2.1,
    ((hstart (stop_mining s t)).2.2).trans hstop.2.2⟩

/-- Tokenizing around an explicit separating space splits the input. -/
theorem splitWsAux_append_space (a : List Char) :
    ∀ cur b : List Char,
      splitWsAux cur (a ++ ' ' :: b) = splitWsAux cur a ++ splitWsAux [] b := by
  induction a with
  | nil =>
    intro cur b
    cases cur <;> simp [splitWsAux, isWs]
  | cons c cs ih =>
    intro cur b
    cases hc : isWs c <;> cases cur <;> simp [splitWsAux, hc, ih]

/-- Tokenizing an all-non-whitespace list yields at most the one token formed
with the pending accumulator. -/
theorem splitWsAux_token (tok : List Char) :
    ∀ cur : List Char, tok.all (fun ch => !isWs ch) = true →
      splitWsAux cur tok =
        if cur.reverse ++ tok = [] then [] else [cur.reverse ++ tok] := by
  induction tok with
  | nil =>
    intro cur h
    cases cur <;> simp [splitWsAux]
  | cons c cs ih =>
    intro cur h
    simp only [List.all_cons, Bool.and_eq_true, Bool.not_eq_true'] at h
    rw [splitWsAux, if_neg (by simp [h.1]), ih (c :: cur) (by simpa using h.2)]
    have hrw : (c :: cur).reverse ++ cs = cur.reverse ++ (c :: cs) := by
      simp
    rw [hrw]

/-- A non-empty whitespace-free token followed by a space is cut off as one
token. -/
theorem splitWs_token_space (tok b : List Char) (hne : tok ≠ [])
    (hall : tok.all (fun ch => !isWs ch) = true) :
    splitWsAux [] (tok ++ ' ' :: b) = tok :: splitWsAux [] b := by
  rw [splitWsAux_append_space tok [] b, splitWsAux_token tok [] hall]
  simp [hne]

/-- Tokenizing a space-joined token list recovers the tokens. -/
theorem splitWs_joinSp :
    ∀ (toks : List (List Char)) (tail : List Char),
      (∀ t ∈ toks, t ≠ [] ∧ t.all (fun ch => !isWs ch) = true) →
      splitWsAux [] (joinSp toks tail) = toks ++ splitWsAux [] tail := by
  intro toks
  induction toks with
  | nil => intro tail h; simp [joinSp]
  | cons t rest ih =>
    intro tail h
    have ht := h t (List.mem_cons_self _ _)
    have hrest : ∀ q ∈ rest, q ≠ [] ∧ q.all (fun ch => !isWs ch) = true :=
      fun q hq => h q (List.mem_cons_of_mem _ hq)
    simp only [joinSp]
    rw [splitWs_token_space t _ ht.1 ht.2, ih tail hrest]
    rfl

/-- Decimal digit characters are not whitespace. -/
theorem digitChar_not_ws (d : Nat) : isWs (digitChar d) = false := by
  have h : d % 10 = 0 ∨ d % 10 = 1 ∨ d % 10 = 2 ∨ d % 10 = 3 ∨ d % 10 = 4 ∨
      d % 10 = 5 ∨ d % 10 = 6 ∨ d % 10 = 7 ∨ d % 10 = 8 ∨ d % 10 = 9 := by
    omega
  unfold digitChar
  rcases h with h | h | h | h | h | h | h | h | h | h <;> rw [h] <;> decide

/-- The decimal rendering contains no whitespace. -/
theorem natCharsAux_not_ws (fuel : Nat) :
    ∀ n, (natCharsAux fuel n).all (fun ch => !isWs ch) = true := by
  induction fuel with
  | zero => intro n; simp [natCharsAux]
  | succ k ih =>
    intro n
    by_cases h : n < 10 <;>
      simp [natCharsAux, h, List.all_append, ih (n / 10), digitChar_not_ws n]

/-- The decimal rendering contains no whitespace. -/
theorem natChars_not_ws (n : Nat) :
    (natChars n).all (fun ch => !isWs ch) = true :=
  natCharsAux_not_ws (n + 1) n

/-- The decimal rendering is never empty. -/
theorem natChars_ne_nil (n : Nat) : natChars n ≠ [] := by
  unfold natChars natCharsAux
  by_cases h : n < 10 <;> simp [h]

/-- Counterexample for C9: with a password containing a space ("a b"), the
whitespace tokenization of the constructed command string is not the claimed
argument sequence: the password splits into two separate arguments. -/
theorem buildCmd_space_counterexample :
    splitWs (buildCmdChars "python poclbm.py".data cexConfig) ≠
      splitWs "python poclbm.py".data ++ claimedArgsChars cexConfig ++
        splitWs "".data ∧
    splitWs (buildCmdChars "python poclbm.py".data cexConfig) =
      ["python".data, "poclbm.py".data, "--user=u".data, "--pass=a".data,
       "b".data, "-o".data, "h".data, "-p".data, "8332".data, "-d0".data,
       "--verbose".data] := by
  constructor
  · decide
  · decide

/-- Claim C9 (amended): provided username, password, host and port contain no
whitespace and host and port are non-empty, the whitespace tokenization of
the command string built by start_mining equals the executable tokens
followed by --user=<u>, --pass=<p>, -o, <host>, -p, <port>, -d<device>,
--verbose, followed by the whitespace-split extra flags; the device index and
flags are interpolated verbatim with no validation. -/
theorem buildCmd_tokens (exe : List Char) (c : MinerConfig)
    (hu : c.username.data.all (fun ch => !isWs ch) = true)
    (hp : c.password.data.all (fun ch => !isWs ch) = true)
    (hh : c.host.data.all (fun ch => !isWs ch) = true)
    (hpo : c.port.data.all (fun ch => !isWs ch) = true)
    (hhne : c.host.data ≠ []) (hpone : c.port.data ≠ []) :
    splitWs (buildCmdChars exe c) =
      splitWs exe ++ claimedArgsChars c ++ splitWs c.flags.data := by
  have htoks : ∀ t ∈ claimedArgsChars c,
      t ≠ [] ∧ t.all (fun ch => !isWs ch) = true := by
    intro tk htk
    simp only [claimedArgsChars, List.mem_cons,
      List.not_mem_nil, or_false] at htk
    rcases htk with rfl | rfl | rfl | rfl | rfl | rfl | rfl | rfl
    · refine ⟨?_, ?_⟩
      · intro heq
        exact absurd (List.append_eq_nil.mp heq).1 (by decide)
      · rw [List.all_append, hu]
        decide
    · refine ⟨?_, ?_⟩
      · intro heq
        exact absurd (List.append_eq_nil.mp heq).1 (by decide)
      · rw [List.all_append, hp]
        decide
    · exact ⟨by decide, by decide⟩
    · exact ⟨hhne, hh⟩
    · exact ⟨by decide, by decide⟩
    · exact ⟨hpone, hpo⟩
    · refine ⟨?_, ?_⟩
      · intro heq
        exact absurd (List.append_eq_nil.mp heq).1 (by decide)
      · rw [List.all_append, natChars_not_ws]
        decide
    · exact ⟨by decide, by decide⟩
  have hshape : buildCmdChars exe c =
      exe ++ ' ' :: joinSp (claimedArgsChars c) c.flags.data := rfl
  unfold splitWs
  rw [hshape, splitWsAux_append_space exe [] _,
    splitWs_joinSp (claimedArgsChars c) c.flags.data htoks,
    List.append_assoc]

/-- Witness for C9 (amended) at a whitespace-free configuration. -/
theorem buildCmd_tokens_witness :
    splitWs (buildCmdChars "python poclbm.py".data okConfig) =
      splitWs "python poclbm.py".data ++ claimedArgsChars okConfig ++
        splitWs "-v -w128".data :=
  buildCmd_tokens "python poclbm.py".data okConfig (by decide) (by decide)
    (by decide) (by decide) (by decide) (by decide)
